import Mathlib

/-!
Verification of the LightRAG conversational RAG gateway
(`src/light-rag-agent/LightRAG`) against its natural-language specification.

The development shallowly embeds the cache / rate-limit / retrieval layer:

* `app/core/chat_cache.py` — `CachedResponse`, `SemanticCache`,
  `IntelligentChatCache` (exact / popular / semantic tiers);
* `app/api/server.py`    — per-user fixed-window rate limiter, the server-side
  chat response cache `_chat_cache`, smart history truncation, and the
  cache-vs-rate-limit ordering of `chat_endpoint`;
* `app/agent/rag_agent.py` — the `retrieve` tool with its adaptive timeout
  tiers, single fallback attempt and retrieval result cache.

Python dicts are modelled as association lists with insertion-order
semantics (insert replaces in place, iteration follows insertion order),
`time.time()` instants as exact rationals, and the query digest
`hashlib.sha256(...).hexdigest()[:16]` by an executable SHA-256 over the
UTF-8 bytes of the string, so that every concrete scenario evaluates by
`decide`/`rfl`.
-/

set_option maxRecDepth 4000
set_option maxHeartbeats 2000000

/- The Batteries rational arithmetic is shipped `@[irreducible]`; concrete
evaluation by `decide` needs it unfolded (the kernel ignores reducibility
attributes, so proofs are unaffected). -/
attribute [local semireducible] Rat.add Rat.sub Rat.mul Rat.inv

/-! ### Python string primitives

`str.lower`, `str.strip`, `str.replace('\n', ' ')`, `str.split()` and the
substring operator `in`, restricted to the alphabets that actually occur in
the repository (ASCII and Cyrillic). -/

/-- Python `str.lower` on one character for the ASCII and Cyrillic ranges
(`А`–`Я` maps to `а`–`я`, `Ё` to `ё`). -/
def pyLowerChar (c : Char) : Char :=
  if 'A' ≤ c ∧ c ≤ 'Z' then Char.ofNat (c.toNat + 32)
  else if c.toNat ≥ 0x410 ∧ c.toNat ≤ 0x42F then Char.ofNat (c.toNat + 0x20)
  else if c.toNat = 0x401 then Char.ofNat 0x451
  else c

/-- Python `str.lower`. -/
def pyLower (s : String) : String := ⟨s.data.map pyLowerChar⟩

/-- Whitespace in the sense of Python `str.strip()` (the characters that
occur in this code base). -/
def isPyWs (c : Char) : Bool := c = ' ' ∨ c = '\t' ∨ c = '\n' ∨ c = '\r'

/-- Python `str.strip()`. -/
def pyStrip (s : String) : String :=
  ⟨((s.data.dropWhile isPyWs).reverse.dropWhile isPyWs).reverse⟩

/-- Python `str.replace('\n', ' ')`. -/
def replaceNl (s : String) : String :=
  ⟨s.data.map (fun c => if c = '\n' then ' ' else c)⟩

/-- Python `str.split()` (splits on runs of whitespace, no empty fields);
used by the code only through `len(q.split())`. -/
def pySplit (s : String) : List String :=
  (s.data.foldr
    (fun c (acc : List (List Char)) =>
      if isPyWs c then
        match acc with
        | [] :: _ => acc
        | _ => [] :: acc
      else
        match acc with
        | w :: ws => (c :: w) :: ws
        | [] => [[c]])
    []).filter (· ≠ []) |>.map (⟨·⟩)

/-- Python `pat in s` (substring containment), via `List.isInfix` on the
character lists. -/
def pyContains (s pat : String) : Bool := decide (pat.data <:+: s.data)

/-! ### SHA-256

Executable embedding of `hashlib.sha256(content.encode()).hexdigest()`,
operating on the UTF-8 bytes of the input.  All words are `Nat` reduced
mod `2^32`. -/

/-- UTF-8 encoding of one character (code points below `0x10000` suffice for
the strings in this repository). -/
def utf8Bytes (c : Char) : List Nat :=
  let n := c.toNat
  if n < 0x80 then [n]
  else if n < 0x800 then [0xC0 + n / 64, 0x80 + n % 64]
  else [0xE0 + n / 4096, 0x80 + (n / 64) % 64, 0x80 + n % 64]

/-- UTF-8 bytes of a string (Python `s.encode()`). -/
def strUtf8 (s : String) : List Nat :=
  s.data.foldr (fun c acc => utf8Bytes c ++ acc) []

/-- 32-bit right rotation (operands below `2^32`). -/
def rotr (x n : Nat) : Nat := (x >>> n) ||| ((x <<< (32 - n)) % 4294967296)

def shaCh (e f g : Nat) : Nat := (e &&& f) ^^^ ((4294967295 - e) &&& g)

def shaMaj (a b c : Nat) : Nat := (a &&& b) ^^^ (a &&& c) ^^^ (b &&& c)

def bigSigma0 (x : Nat) : Nat := rotr x 2 ^^^ rotr x 13 ^^^ rotr x 22

def bigSigma1 (x : Nat) : Nat := rotr x 6 ^^^ rotr x 11 ^^^ rotr x 25

def smallSigma0 (x : Nat) : Nat := rotr x 7 ^^^ rotr x 18 ^^^ (x >>> 3)

def smallSigma1 (x : Nat) : Nat := rotr x 17 ^^^ rotr x 19 ^^^ (x >>> 10)

/-- The 64 SHA-256 round constants. -/
def shaK : List Nat :=
  [1116352408, 1899447441, 3049323471, 3921009573, 961987163, 1508970993,
   2453635748, 2870763221, 3624381080, 310598401, 607225278, 1426881987,
   1925078388, 2162078206, 2614888103, 3248222580, 3835390401, 4022224774,
   264347078, 604807628, 770255983, 1249150122, 1555081692, 1996064986,
   2554220882, 2821834349, 2952996808, 3210313671, 3336571891, 3584528711,
   113926993, 338241895, 666307205, 773529912, 1294757372, 1396182291,
   1695183700, 1986661051, 2177026350, 2456956037, 2730485921, 2820302411,
   3259730800, 3345764771, 3516065817, 3600352804, 4094571909, 275423344,
   430227734, 506948616, 659060556, 883997877, 958139571, 1322822218,
   1537002063, 1747873779, 1955562222, 2024104815, 2227730452, 2361852424,
   2428436474, 2756734187, 3204031479, 3329325298]

/-- SHA-256 initial hash value. -/
def shaH0 : List Nat :=
  [1779033703, 3144134277, 1013904242, 2773480762, 1359893119, 2600822924,
   528734635, 1541459225]

/-- Message-schedule extension: given the 16 block words (most recent first),
prepends the 48 derived words.  The accumulator is kept reversed so each step
reads `W[t-2], W[t-7], W[t-15], W[t-16]` at head offsets `1, 6, 14, 15`. -/
def extendW (first16 : List Nat) : List Nat :=
  ((List.range 48).foldl
    (fun w _ =>
      ((smallSigma1 (w.getD 1 0) + w.getD 6 0 + smallSigma0 (w.getD 14 0) +
        w.getD 15 0) % 4294967296) :: w)
    first16.reverse).reverse

/-- One SHA-256 compression round. -/
def shaRound (st : Nat × Nat × Nat × Nat × Nat × Nat × Nat × Nat)
    (kw : Nat × Nat) : Nat × Nat × Nat × Nat × Nat × Nat × Nat × Nat :=
  let (a, b, c, d, e, f, g, h) := st
  let t1 := (h + bigSigma1 e + shaCh e f g + kw.1 + kw.2) % 4294967296
  let t2 := (bigSigma0 a + shaMaj a b c) % 4294967296
  ((t1 + t2) % 4294967296, a, b, c, (d + t1) % 4294967296, e, f, g)

/-- Compress one 16-word block into the running hash state. -/
def shaBlock (H : List Nat) (block : List Nat) : List Nat :=
  let W := extendW block
  let st0 := (H.getD 0 0, H.getD 1 0, H.getD 2 0, H.getD 3 0,
              H.getD 4 0, H.getD 5 0, H.getD 6 0, H.getD 7 0)
  let (a, b, c, d, e, f, g, h) := (shaK.zip W).foldl shaRound st0
  [(H.getD 0 0 + a) % 4294967296, (H.getD 1 0 + b) % 4294967296,
   (H.getD 2 0 + c) % 4294967296, (H.getD 3 0 + d) % 4294967296,
   (H.getD 4 0 + e) % 4294967296, (H.getD 5 0 + f) % 4294967296,
   (H.getD 6 0 + g) % 4294967296, (H.getD 7 0 + h) % 4294967296]

/-- Big-endian byte decomposition of a `w`-byte quantity. -/
def beBytes (w n : Nat) : List Nat :=
  (List.range w).map (fun i => (n >>> (8 * (w - 1 - i))) % 256)

/-- SHA-256 padding: `0x80`, zeros to 56 mod 64, then the 64-bit bit length. -/
def shaPad (msg : List Nat) : List Nat :=
  msg ++ [128] ++ List.replicate ((119 - msg.length % 64) % 64) 0 ++
    beBytes 8 (8 * msg.length)

/-- Pack a padded byte list into big-endian 32-bit words. -/
def bytesToWords : List Nat → List Nat
  | b0 :: b1 :: b2 :: b3 :: rest =>
      (b0 * 16777216 + b1 * 65536 + b2 * 256 + b3) :: bytesToWords rest
  | _ => []

/-- Group the word list into 16-word blocks. -/
def wordsToBlocks : List Nat → List (List Nat)
  | w0 :: w1 :: w2 :: w3 :: w4 :: w5 :: w6 :: w7 ::
    w8 :: w9 :: w10 :: w11 :: w12 :: w13 :: w14 :: w15 :: rest =>
      [w0, w1, w2, w3, w4, w5, w6, w7, w8, w9, w10, w11, w12, w13, w14, w15] ::
      wordsToBlocks rest
  | _ => []

/-- Group a padded byte list into 16-word blocks (big-endian words). -/
def shaBlocks (padded : List Nat) : List (List Nat) :=
  wordsToBlocks (bytesToWords padded)

/-- Lower-case hex digit. -/
def hexChar (n : Nat) : Char :=
  if n < 10 then Char.ofNat (48 + n) else Char.ofNat (87 + n)

/-- 8-digit hex rendering of a 32-bit word. -/
def wordHex (n : Nat) : List Char :=
  (List.range 8).map (fun i => hexChar ((n >>> (4 * (7 - i))) % 16))

/-- `hashlib.sha256(s.encode()).hexdigest()`. -/
def sha256hex (s : String) : String :=
  ⟨((shaBlocks (shaPad (strUtf8 s))).foldl shaBlock shaH0).foldr
    (fun w acc => wordHex w ++ acc) []⟩

example : sha256hex "abc" =
    "ba7816bf8f01cfea414140de5dae2223b00361a396177a9cb410ff61f20015ad" := by
  decide

example : sha256hex "" =
    "e3b0c44298fc1c149afbf4c8996fb92427ae41e4649b934ca495991b7852b855" := by
  decide

example : sha256hex "alpha|" =
    "7946bc756a30f7f2a94256f2ae8811a51ccdf8ea3e0f84597277c0aa64d7fec4" := by
  decide

/-! ### Python dicts

Insertion-ordered association lists with unique keys: assignment to an
existing key replaces the value in place, assignment to a fresh key appends,
iteration follows insertion order (CPython ≥ 3.7 semantics). -/

def dictGet {α : Type} (d : List (String × α)) (k : String) : Option α :=
  (d.find? (·.1 = k)).map (·.2)

def dictContains {α : Type} (d : List (String × α)) (k : String) : Bool :=
  (d.find? (·.1 = k)).isSome

def dictInsert {α : Type} (d : List (String × α)) (k : String) (v : α) :
    List (String × α) :=
  if dictContains d k then d.map (fun p => if p.1 = k then (k, v) else p)
  else d ++ [(k, v)]

def dictErase {α : Type} (d : List (String × α)) (k : String) :
    List (String × α) :=
  d.filter (fun p => p.1 ≠ k)

/-! ### `app/core/chat_cache.py` — data model -/

/-- `CachedResponse` (dataclass): cached chat response with metadata.
`timestamp` is the `time.time()` instant as an exact rational.  The
`embedding` holds the query's term-frequency/idf vector; the source stores
the L2-normalised version, a per-entry positive scaling that nothing in the
claims (or the code) observes. -/
structure CachedResponse where
  response : String
  sources : List String
  timestamp : ℚ
  query_hash : String
  embedding : Option (List ℚ) := none
  usage_count : Nat := 0
  conversation_context : String := ""
deriving DecidableEq, Repr

/-- `_normalize_query` (identical in `SemanticCache` and
`IntelligentChatCache`): `query.lower().strip().replace('\n', ' ')`. -/
def normalize_query (q : String) : String := replaceNl (pyStrip (pyLower q))

/-- `_get_query_hash`: `sha256(f"{normalized}|{context}").hexdigest()[:16]`. -/
def get_query_hash (query context : String) : String :=
  (sha256hex (normalize_query query ++ "|" ++ context)).take 16

/-! ### TF-IDF vectorisation (`sklearn.feature_extraction.text.TfidfVectorizer`)

`TfidfVectorizer(max_features=1000, ngram_range=(1, 2))` with default word
analyzer: lowercase, tokens are maximal runs of at least two word characters
(`token_pattern r"(?u)\b\w\w+\b"`), features are unigrams and bigrams, and a
document's coordinate for term `t` is `count(t) * idf(t)` followed by L2 row
normalisation.  The idf weight `ln((1 + n_samples)/(1 + df(t))) + 1` is an
irrational positive real; the embedding takes the per-term weight as an
explicit parameter `w` and the theorems below hold for every positive `w`,
hence in particular for the code's idf.  Row normalisation is dropped: it
rescales each vector by a positive constant, which no cosine comparison can
observe. -/

/-- Word characters of the regex class `\w` under the `(?u)` flag, for the
alphabets occurring in this repository (ASCII letters, digits, underscore,
Cyrillic). -/
def isWordChar (c : Char) : Bool :=
  c.isAlphanum || c = '_' || (c.toNat ≥ 0x400 ∧ c.toNat ≤ 0x4FF)

/-- Maximal runs of characters satisfying `p` (other characters separate). -/
def charRuns (p : Char → Bool) (l : List Char) : List (List Char) :=
  (l.foldr
    (fun c acc =>
      if p c then
        match acc with
        | w :: ws => (c :: w) :: ws
        | [] => [[c]]
      else
        match acc with
        | [] :: _ => acc
        | _ => [] :: acc)
    []).filter (· ≠ [])

/-- The vectorizer's tokens of a document: maximal word-character runs of
length ≥ 2, after lowercasing. -/
def sklearnTokens (s : String) : List String :=
  ((charRuns isWordChar (pyLower s).data).filter (fun w => w.length ≥ 2)).map
    (⟨·⟩)

/-- Adjacent-token bigrams, joined by a space. -/
def bigrams : List String → List String
  | a :: b :: rest => (a ++ " " ++ b) :: bigrams (b :: rest)
  | _ => []

/-- Terms of a document under `ngram_range=(1, 2)`: unigrams and bigrams. -/
def docTerms (s : String) : List String :=
  let t := sklearnTokens s
  t ++ bigrams t

/-- Insertion into a list sorted by the comparator `le` (used instead of a
merge sort so that concrete vocabularies evaluate by kernel reduction; on
deduplicated input every correct ascending sort produces the same list). -/
def insertBy {α : Type} (le : α → α → Bool) (x : α) : List α → List α
  | [] => [x]
  | a :: as => if le x a then x :: a :: as else a :: insertBy le x as

/-- Insertion sort by the comparator `le`. -/
def sortBy {α : Type} (le : α → α → Bool) (l : List α) : List α :=
  l.foldr (insertBy le) []

/-- Code-point lexicographic comparison of character lists. -/
def charListLt : List Char → List Char → Bool
  | [], [] => false
  | [], _ :: _ => true
  | _ :: _, [] => false
  | a :: as, b :: bs =>
    if a.toNat < b.toNat then true
    else if b.toNat < a.toNat then false
    else charListLt as bs

/-- Code-point lexicographic `≤` on strings (Python string comparison, the
order sklearn sorts the vocabulary by). -/
def strLe (a b : String) : Bool := ! charListLt b.data a.data

/-- The fitted vocabulary: sorted distinct terms of the corpus.  With
`max_features=1000` sklearn keeps the 1000 most frequent terms; every corpus
built in this file stays far below 1000 features, so the cap is inert. -/
def vocabulary (corpus : List String) : List String :=
  let all := (corpus.foldr (fun d acc => docTerms d ++ acc) []).dedup
  let v := sortBy strLe all
  if v.length ≤ 1000 then v
  else
    sortBy strLe
      ((((sortBy (fun a b => b.2 ≤ a.2)
          (v.map (fun t => (t, (corpus.foldr (fun d acc => docTerms d ++ acc)
            []).count t)))).take 1000).map (·.1)))

/-- Term-frequency/weight row of a document over a vocabulary. -/
def tfidfRow (w : String → ℚ) (vocab : List String) (doc : String) : List ℚ :=
  vocab.map (fun t => ((docTerms doc).count t : ℚ) * w t)

/-- Dot product over ℚ. -/
def dotQ : List ℚ → List ℚ → ℚ
  | a :: as, b :: bs => a * b + dotQ as bs
  | _, _ => 0

/-- Squared norm with the zero-vector clamp of `sklearn normalize`: a zero
row keeps norm 1, so its cosine similarities are all 0. -/
def cnormSq (v : List ℚ) : ℚ := if dotQ v v = 0 then 1 else dotQ v v

/-- Exact test `cos(u, v) ≥ θ` where `cos(u, v) = dot(u,v)/√(cnormSq u ·
cnormSq v)`, carried out in ℚ by clearing the positive square roots
(sign analysis plus squaring). -/
def cosGE (u v : List ℚ) (θ : ℚ) : Bool :=
  let d := dotQ u v
  let a := cnormSq u * cnormSq v
  if 0 ≤ d then
    if 0 ≤ θ then decide (d ^ 2 ≥ θ ^ 2 * a) else true
  else
    if 0 ≤ θ then false else decide (d ^ 2 ≤ θ ^ 2 * a)

/-- Exact test `cos(u, v1) > cos(u, v2)`: the common factor `1/√(cnormSq u)`
is positive and cancels, the remaining square roots are cleared by sign
analysis plus squaring. -/
def cosGT (u v1 v2 : List ℚ) : Bool :=
  let d1 := dotQ u v1
  let d2 := dotQ u v2
  if 0 ≤ d1 then
    if 0 ≤ d2 then decide (d1 ^ 2 * cnormSq v2 > d2 ^ 2 * cnormSq v1) else
      true
  else
    if 0 ≤ d2 then false else
      decide (d1 ^ 2 * cnormSq v2 < d2 ^ 2 * cnormSq v1)

/-- `np.argmax` of the cosine similarities of `u` against `v0 :: vs`: index
of the first occurrence of the maximum (a later candidate replaces the
running best only when strictly greater). -/
def bestSimIdx (u v0 : List ℚ) (vs : List (List ℚ)) : Nat :=
  (vs.foldl
    (fun (st : Nat × Nat × List ℚ) v =>
      let i := st.1 + 1
      if cosGT u v st.2.2 then (i, i, v) else (i, st.2.1, st.2.2))
    (0, 0, v0)).2.1

/-! ### `SemanticCache` -/

/-- `SemanticCache` state.  `vocab` and the `w`-weighted `query_vectors` model
the fitted `TfidfVectorizer`; `similarity_threshold` defaults to 0.85. -/
structure SemanticCache where
  similarity_threshold : ℚ := 17 / 20
  vocab : List String := []
  query_vectors : List (List ℚ) := []
  cached_responses : List CachedResponse := []
  is_fitted : Bool := false
deriving DecidableEq, Repr

/-- `SemanticCache.add_to_cache`.  The re-fit corpus is the new normalized
query followed by `normalize(r.query_hash)` for the last 100 stored entries —
the source re-fits on the entries' hash digests, not on their original
queries.  `fit_transform` raises on an empty vocabulary; the surrounding
`try/except` then leaves the cache unchanged.  After a successful fit the
response (with its embedding, row 0) is appended and both lists are trimmed
to their last 500 entries. -/
def add_to_cache (S : SemanticCache) (query : String) (response : CachedResponse)
    (w : String → ℚ) : SemanticCache :=
  let normalized_query := normalize_query query
  let all_queries := normalized_query ::
    ((S.cached_responses.drop (S.cached_responses.length - 100)).map
      (fun r => normalize_query r.query_hash))
  let v := vocabulary all_queries
  if v = [] then S
  else
    let qvs := all_queries.map (tfidfRow w v)
    let resp : CachedResponse := { response with embedding := some (qvs.getD 0 []) }
    let cached : List CachedResponse := S.cached_responses ++ [resp]
    if cached.length > 500 then
      { S with vocab := v,
               query_vectors := qvs.drop (qvs.length - 500),
               cached_responses := cached.drop (cached.length - 500),
               is_fitted := true }
    else
      { S with vocab := v, query_vectors := qvs, cached_responses := cached,
               is_fitted := true }

/-- Body of `SemanticCache.find_similar` inside its `try`: transform the
normalized query over the fitted vocabulary, take `np.max` of the cosine
similarities (raises on an empty array), and on `max ≥ threshold` return the
entry at `np.argmax` with its `usage_count` incremented (an out-of-range
index raises).  Since the entry at `bestSimIdx` attains the maximum, the
threshold test on it is exactly `np.max(similarities) ≥ threshold`. -/
def find_similar_body (S : SemanticCache) (query : String) (w : String → ℚ) :
    Except String (SemanticCache × Option CachedResponse) :=
  let qv := tfidfRow w S.vocab (normalize_query query)
  match S.query_vectors with
  | [] => .error "zero-size array to reduction operation maximum"
  | v0 :: vs =>
    let best := bestSimIdx qv v0 vs
    if cosGE qv ((v0 :: vs).getD best []) S.similarity_threshold then
      match S.cached_responses.get? best with
      | none => .error "list index out of range"
      | some r =>
        let r' := { r with usage_count := r.usage_count + 1 }
        .ok ({ S with cached_responses := S.cached_responses.set best r' },
             some r')
    else .ok (S, none)

/-- `SemanticCache.find_similar`: `None` when not fitted or empty; any
exception inside the body is swallowed and treated as a miss. -/
def find_similar (S : SemanticCache) (query : String) (w : String → ℚ) :
    SemanticCache × Option CachedResponse :=
  if S.is_fitted = false ∨ S.cached_responses = [] then (S, none)
  else
    match find_similar_body S query w with
    | .ok r => r
    | .error _ => (S, none)

/-! ### `IntelligentChatCache` -/

/-- `IntelligentChatCache` state: exact tier (dict keyed by
`_get_query_hash`), semantic tier, popular tier (dict keyed by keyword), and
the `stats` dict. -/
structure IntelligentChatCache where
  exact_cache : List (String × CachedResponse) := []
  max_exact_cache : Nat := 1000
  semantic_cache : SemanticCache := {}
  popular_cache : List (String × CachedResponse) := []
  stats_exact_hits : Nat := 0
  stats_semantic_hits : Nat := 0
  stats_misses : Nat := 0
  stats_total_requests : Nat := 0
deriving DecidableEq, Repr

/-- `_load_popular_cache`: the two pre-baked popular entries, stamped with
the `time.time()` of initialisation. -/
def load_popular_cache (now : ℚ) : List (String × CachedResponse) :=
  [("золотая виза",
    { response := "Золотая виза ОАЭ — это долгосрочная резидентская виза сроком до 10 лет...",
      sources := ["golden_visa_overview.md"], timestamp := now,
      query_hash := "popular_golden_visa", usage_count := 0 }),
   ("инвестиционная виза",
    { response := "Инвестиционная виза в ОАЭ предоставляется инвесторам при инвестициях от 2 млн дирхамов...",
      sources := ["investment_visa.md"], timestamp := now,
      query_hash := "popular_investment_visa", usage_count := 0 })]

/-- `IntelligentChatCache.__init__` (the cache-directory handling is file
system scaffolding outside this embedding). -/
def initCache (now : ℚ) : IntelligentChatCache :=
  { popular_cache := load_popular_cache now }

/-- `IntelligentChatCache.get_cached_response`: bump `total_requests`, then
exact tier, then popular tier (substring match in either direction, first
matching pattern in insertion order), then semantic tier.  Hits increment the
entry's `usage_count` in place and the corresponding hit counter; a miss
increments `misses`.  No tier consults the entry timestamps or the clock. -/
def get_cached_response (c : IntelligentChatCache) (query : String)
    (context : String) (w : String → ℚ) :
    IntelligentChatCache × Option CachedResponse :=
  let c := { c with stats_total_requests := c.stats_total_requests + 1 }
  let query_hash := get_query_hash query context
  match dictGet c.exact_cache query_hash with
  | some r =>
    let r' := { r with usage_count := r.usage_count + 1 }
    ({ c with exact_cache := dictInsert c.exact_cache query_hash r',
              stats_exact_hits := c.stats_exact_hits + 1 }, some r')
  | none =>
    let normalized := normalize_query query
    match c.popular_cache.find?
        (fun p => pyContains normalized p.1 || pyContains p.1 normalized) with
    | some p =>
      let r' := { p.2 with usage_count := p.2.usage_count + 1 }
      ({ c with popular_cache := dictInsert c.popular_cache p.1 r',
                stats_exact_hits := c.stats_exact_hits + 1 }, some r')
    | none =>
      match find_similar c.semantic_cache query w with
      | (S, some r) =>
        ({ c with semantic_cache := S,
                  stats_semantic_hits := c.stats_semantic_hits + 1 }, some r)
      | (S, none) =>
        ({ c with semantic_cache := S,
                  stats_misses := c.stats_misses + 1 }, none)

/-- `min(self.exact_cache.keys(), key=lambda k: timestamp)`: the first key
(in insertion order) holding the minimal timestamp. -/
def oldestKey (d : List (String × CachedResponse)) : Option String :=
  match d with
  | [] => none
  | e :: es =>
    some ((es.foldl
      (fun b p => if p.2.timestamp < b.2.timestamp then p else b) e).1)

/-- The hardcoded popular keyword list of `_update_popular_cache`. -/
def popular_keywords : List String :=
  ["золотая виза", "golden visa", "инвестиционная виза", "бизнес лицензия",
   "фриз зона", "dubai", "дубай", "residence", "резидентство", "инвестиции"]

/-- `_update_popular_cache`: store the response under the first keyword
contained in the normalized query, if any. -/
def update_popular (pc : List (String × CachedResponse)) (query : String)
    (r : CachedResponse) : List (String × CachedResponse) :=
  let normalized := normalize_query query
  match popular_keywords.find? (fun k => pyContains normalized k) with
  | some k => dictInsert pc k r
  | none => pc

/-- `IntelligentChatCache.cache_response`: build the entry (timestamp `now`),
insert into the exact tier, evict the oldest-timestamp entry if the tier now
exceeds `max_exact_cache`, then feed the semantic and popular tiers.  No
minimum-length condition is applied here. -/
def cache_response (c : IntelligentChatCache) (query response : String)
    (sources : List String) (context : String) (now : ℚ) (w : String → ℚ) :
    IntelligentChatCache :=
  let query_hash := get_query_hash query context
  let cached_response : CachedResponse :=
    { response := response, sources := sources, timestamp := now,
      query_hash := query_hash, conversation_context := context }
  let exact := dictInsert c.exact_cache query_hash cached_response
  let exact :=
    if exact.length > c.max_exact_cache then
      match oldestKey exact with
      | some k => dictErase exact k
      | none => exact
    else exact
  { c with exact_cache := exact,
           semantic_cache := add_to_cache c.semantic_cache query
             cached_response w,
           popular_cache := update_popular c.popular_cache query
             cached_response }

/-- `get_cache_stats`: `total_requests = 0` returns the bare counters, else
they are extended with the (unrounded) hit rate and the three tier sizes. -/
inductive CacheStats
  | basic (exact_hits semantic_hits misses total_requests : Nat)
  | full (exact_hits semantic_hits misses total_requests : Nat)
         (hit_rate_percent : ℚ)
         (exact_cache_size semantic_cache_size popular_cache_size : Nat)
deriving DecidableEq, Repr

/-- `IntelligentChatCache.get_cache_stats` (the source rounds the hit rate to
two decimals for display; the rounding is not modelled). -/
def get_cache_stats (c : IntelligentChatCache) : CacheStats :=
  if c.stats_total_requests = 0 then
    .basic c.stats_exact_hits c.stats_semantic_hits c.stats_misses 0
  else
    .full c.stats_exact_hits c.stats_semantic_hits c.stats_misses
      c.stats_total_requests
      (((c.stats_exact_hits + c.stats_semantic_hits : ℚ)) /
        (c.stats_total_requests : ℚ) * 100)
      c.exact_cache.length c.semantic_cache.cached_responses.length
      c.popular_cache.length

/-- `IntelligentChatCache.clear_cache`: empty the exact tier, empty the
semantic tier (responses, vectors, fitted flag — the fitted vocabulary
persists inside the vectorizer object), zero all statistics.  The popular
tier is untouched. -/
def clear_cache (c : IntelligentChatCache) : IntelligentChatCache :=
  let S := c.semantic_cache
  let S := { S with cached_responses := ([] : List CachedResponse),
                    query_vectors := ([] : List (List ℚ)),
                    is_fitted := false }
  { c with exact_cache := [], semantic_cache := S,
           stats_exact_hits := 0, stats_semantic_hits := 0,
           stats_misses := 0, stats_total_requests := 0 }

/-! ### `app/api/server.py` — rate limiter, chat-response cache, history

Configuration values are the defaults taken when the `RAG_*` environment
variables are unset, as in the spec's scenarios. -/

def USER_RATE_LIMIT : Nat := 10

def USER_RATE_WINDOW_SECONDS : ℚ := 3600

def MAX_HISTORY_MESSAGES : Nat := 12

def CHAT_CACHE_TTL : ℚ := 1800

/-- One `user_rate` record `{count, window_start}`. -/
structure RateData where
  count : Nat
  window_start : ℚ
deriving DecidableEq, Repr

/-- Result of `_enforce_user_rate_limit`: either the updated `user_rate`
dict, or the 429 `HTTPException` whose detail carries
`int(window - elapsed)` as the retry hint. -/
inductive RateResult
  | allowed (user_rate : List (String × RateData))
  | rejected (retryAfter : Int)
deriving DecidableEq, Repr

/-- `_enforce_user_rate_limit`: initialise a fresh window on first sight or
after the window has elapsed; raise 429 once `count` has reached the limit;
otherwise increment. -/
def enforce_user_rate_limit (ur : List (String × RateData)) (user_id : String)
    (now : ℚ) : RateResult :=
  match dictGet ur user_id with
  | none => .allowed (dictInsert ur user_id ⟨1, now⟩)
  | some data =>
    if now - data.window_start ≥ USER_RATE_WINDOW_SECONDS then
      .allowed (dictInsert ur user_id ⟨1, now⟩)
    else if data.count ≥ USER_RATE_LIMIT then
      .rejected (Rat.floor (USER_RATE_WINDOW_SECONDS -
        (now - data.window_start)))
    else
      .allowed (dictInsert ur user_id { data with count := data.count + 1 })

/-- The slice of a `ChatResponse` the cache layer observes (`metadata`
entries other than `cached` are not modelled; `cache_hit_time` is a
wall-clock decoration nothing reads). -/
structure ChatResponse where
  response : String
  conversation_id : String
  error : Option String := none
  cached_flag : Bool := false
deriving DecidableEq, Repr

/-- `_get_chat_cache_key`: the MD5 hex digest of
`f"{message}|{conversation_id}|{user_id}|{model}"`.  The digest function is
passed as a parameter `digest`; every claim below depends only on the key
being a deterministic function of the four fields. -/
def get_chat_cache_key (digest : String → String)
    (message conversation_id user_id model : String) : String :=
  digest (message ++ "|" ++ conversation_id ++ "|" ++ user_id ++ "|" ++ model)

/-- `_get_cached_chat_response`: a hit younger than `CHAT_CACHE_TTL` is
returned; an expired entry is deleted and reported as a miss. -/
def get_cached_chat_response (cc : List (String × (ChatResponse × ℚ)))
    (key : String) (now : ℚ) :
    List (String × (ChatResponse × ℚ)) × Option ChatResponse :=
  match dictGet cc key with
  | some rt =>
    if now - rt.2 < CHAT_CACHE_TTL then (cc, some rt.1)
    else (dictErase cc key, none)
  | none => (cc, none)

/-- `_cache_chat_response`: insert, then if the dict holds more than 500
entries drop every entry strictly older than the TTL. -/
def cache_chat_response (cc : List (String × (ChatResponse × ℚ)))
    (key : String) (resp : ChatResponse) (now : ℚ) :
    List (String × (ChatResponse × ℚ)) :=
  let cc := dictInsert cc key (resp, now)
  if cc.length > 500 then
    cc.filter (fun p => ¬ (now - p.2.2 > CHAT_CACHE_TTL))
  else cc

/-! ### History truncation -/

/-- The synthetic gap marker inserted by `_smart_truncate_history`. -/
def gapMessage (omitted : Nat) : String × String :=
  ("system",
   "[Пропущено " ++ toString omitted ++
     " сообщений для оптимизации производительности]")

/-- `_smart_truncate_history` over `(role, content)` pairs.  Note the Python
slice `messages[-keep_recent:]` with `keep_recent = 0` yields the whole
list, which the model reproduces. -/
def smart_truncate_history (messages : List (String × String))
    (max_messages : Nat) : List (String × String) :=
  if messages.length ≤ max_messages then messages
  else
    let keep_recent := max_messages / 2
    let recent_messages :=
      if keep_recent = 0 then messages
      else messages.drop (messages.length - keep_recent)
    let keep_initial := max_messages - keep_recent
    if keep_initial > 0 then
      let initial_messages := messages.take keep_initial
      if messages.length > max_messages then
        initial_messages ++ [gapMessage (messages.length - max_messages)] ++
          recent_messages
      else initial_messages ++ recent_messages
    else recent_messages

/-- `_format_history`: keep messages with non-blank content, render each as
`User:`/`Assistant:` plus the stripped content, join with newlines. -/
def format_history (relevant : List (String × String)) : String :=
  String.intercalate "\n"
    ((relevant.filter (fun m => pyStrip m.2 ≠ "")).map
      (fun m =>
        (if m.1 = "user" then "User: " else "Assistant: ") ++ pyStrip m.2))

/-- `build_history_context_async` with the default `max_history = 12`: smart
truncation, optional removal of a trailing user message, formatting.  (For
histories above the async threshold the source runs the very same
`_format_history` on an executor; the value is identical.) -/
def build_history_context (messages : List (String × String))
    (include_last_user : Bool) : String :=
  if messages = [] then ""
  else
    let relevant := smart_truncate_history messages MAX_HISTORY_MESSAGES
    let relevant :=
      if ¬include_last_user ∧ (relevant.getLast?.map (·.1)) = some "user" then
        relevant.dropLast
      else relevant
    format_history relevant

/-! ### `chat_endpoint` entry: cache check vs. rate limit -/

/-- The server state the entry of `chat_endpoint` touches before any
retrieval work: the chat-response cache and the per-user rate windows. -/
structure ServerState where
  chat_cache : List (String × (ChatResponse × ℚ)) := []
  user_rate : List (String × RateData) := []
deriving DecidableEq, Repr

/-- Outcome of the entry portion of `chat_endpoint` (up to and including the
rate-limit decision). -/
inductive ChatOutcome
  | badRequest
  | cacheHit (resp : ChatResponse) (st : ServerState)
  | rateLimited (retryAfter : Int) (st : ServerState)
  | proceed (st : ServerState)
deriving DecidableEq, Repr

/-- Entry of `chat_endpoint` for a request carrying an explicit
`conversation_id`: empty-message check, then cache lookup, then — only on a
cache miss — `_enforce_user_rate_limit`.  On a hit the cached response is
returned with `conversation_id` rewritten and `metadata["cached"] = True`;
the rate limiter is never consulted. -/
def chat_endpoint_entry (digest : String → String) (st : ServerState)
    (message conversation_id user_id model : String) (now : ℚ) : ChatOutcome :=
  if pyStrip message = "" then .badRequest
  else
    let cache_key := get_chat_cache_key digest message conversation_id
      user_id model
    match get_cached_chat_response st.chat_cache cache_key now with
    | (cc, some r) =>
      .cacheHit { r with conversation_id := conversation_id,
                         cached_flag := true }
        { st with chat_cache := cc }
    | (cc, none) =>
      match enforce_user_rate_limit st.user_rate user_id now with
      | .rejected retry => .rateLimited retry { st with chat_cache := cc }
      | .allowed ur =>
        .proceed { st with chat_cache := cc, user_rate := ur }

/-- The response-store step at the end of a successful `chat_endpoint` run:
`if result.data and len(result.data.strip()) > 10: _cache_chat_response`.
The endpoint writes to no other cache. -/
def chat_store_step (st : ServerState) (cache_key : String)
    (resp : ChatResponse) (data : String) (now : ℚ) : ServerState :=
  if data ≠ "" ∧ (pyStrip data).length > 10 then
    let cc := cache_chat_response st.chat_cache cache_key resp now
    { st with chat_cache := cc }
  else st

/-! ### `app/agent/rag_agent.py` — retrieval cache and the `retrieve` tool -/

def RAG_CACHE_TTL : ℚ := 300

/-- `_get_cache_key`: the MD5 hex digest of the query (parameter `digest`,
as for the server cache key). -/
def rag_cache_key (digest : String → String) (search_query : String) :
    String :=
  digest search_query

/-- `_get_cached_result`: TTL-checked lookup, expired entries deleted. -/
def get_cached_result (digest : String → String)
    (rc : List (String × (String × ℚ))) (search_query : String) (now : ℚ) :
    List (String × (String × ℚ)) × Option String :=
  match dictGet rc (rag_cache_key digest search_query) with
  | some rt =>
    if now - rt.2 < RAG_CACHE_TTL then (rc, some rt.1)
    else (dictErase rc (rag_cache_key digest search_query), none)
  | none => (rc, none)

/-- `_cache_result`: insert, then if the dict holds more than 1000 entries
drop every entry strictly older than the TTL. -/
def cache_result (digest : String → String)
    (rc : List (String × (String × ℚ))) (search_query result : String)
    (now : ℚ) : List (String × (String × ℚ)) :=
  let rc := dictInsert rc (rag_cache_key digest search_query) (result, now)
  if rc.length > 1000 then
    rc.filter (fun p => ¬ (now - p.2.2 > RAG_CACHE_TTL))
  else rc

/-- Outcome of one `rag.aquery` invocation, as observed by the wrapping
`asyncio.wait_for`: a result, a timeout, or another exception. -/
inductive RagCall
  | ok (result : String)
  | timedOut
  | err (msg : String)
deriving DecidableEq, Repr

/-- One retrieval attempt as issued: search mode and timeout (seconds). -/
structure Attempt where
  mode : String
  timeoutSecs : Nat
deriving DecidableEq, Repr

/-- The adaptive `(mode, timeout)` tier of the `retrieve` tool, from
`len(search_query.split())`, with the default env timeouts 10/30/60. -/
def retrieve_mode_timeout (search_query : String) : String × Nat :=
  let query_length := (pySplit search_query).length
  if query_length ≤ 3 then ("local", 10)
  else if query_length ≤ 7 then ("hybrid", 30)
  else ("mix", 60)

/-- The user-facing message produced when the fallback also fails. -/
def fallback_message (search_query : String) : String :=
  "Поиск по запросу '" ++ search_query ++
    "' занял слишком много времени. Попробуйте упростить запрос."

/-- Result of the `retrieve` tool: returned text, updated retrieval cache,
and the list of `rag.aquery` attempts actually issued. -/
structure RetrieveResult where
  result : String
  cache : List (String × (String × ℚ))
  attempts : List Attempt
deriving DecidableEq, Repr

/-- The `retrieve` tool.  Cache hit: no attempt.  Cache miss: one primary
attempt in the adaptive tier; a non-timeout error propagates to the outer
handler which returns `"Error retrieving documents: ..."` without caching; a
timeout triggers exactly one fallback attempt in mode `"local"` with the
fixed 15 s timeout; if the fallback also times out or errors, the
user-facing `fallback_message` is cached and returned (no exception leaves
the tool). -/
def retrieve (digest : String → String)
    (rc : List (String × (String × ℚ))) (search_query : String) (now : ℚ)
    (primary fallback : RagCall) : RetrieveResult :=
  match get_cached_result digest rc search_query now with
  | (rc, some cached) => ⟨cached, rc, []⟩
  | (rc, none) =>
    let mt := retrieve_mode_timeout search_query
    match primary with
    | .ok res =>
      ⟨res, cache_result digest rc search_query res now, [⟨mt.1, mt.2⟩]⟩
    | .err e =>
      ⟨"Error retrieving documents: " ++ e, rc, [⟨mt.1, mt.2⟩]⟩
    | .timedOut =>
      match fallback with
      | .ok res =>
        ⟨res, cache_result digest rc search_query res now,
         [⟨mt.1, mt.2⟩, ⟨"local", 15⟩]⟩
      | _ =>
        ⟨fallback_message search_query,
         cache_result digest rc search_query (fallback_message search_query)
           now,
         [⟨mt.1, mt.2⟩, ⟨"local", 15⟩]⟩

/-! ### Shared lemmas about the dict model -/

theorem dictGet_map_replace {α : Type} (d : List (String × α)) (k : String)
    (v : α) (h : dictContains d k = true) :
    dictGet (d.map (fun p => if p.1 = k then (k, v) else p)) k = some v := by
  induction d with
  | nil => simp [dictContains] at h
  | cons e es ih =>
    by_cases he : e.1 = k
    · unfold dictGet
      rw [List.map_cons, if_pos he]
      simp [List.find?]
    · unfold dictGet
      rw [List.map_cons, if_neg he,
        List.find?_cons_of_neg _ (by simp [he])]
      apply ih
      unfold dictContains at h ⊢
      rwa [List.find?_cons_of_neg _ (by simp [he])] at h

theorem dictGet_append_new {α : Type} (d : List (String × α)) (k : String)
    (v : α) (h : dictContains d k = false) :
    dictGet (d ++ [(k, v)]) k = some v := by
  induction d with
  | nil =>
    unfold dictGet
    rw [List.nil_append]
    simp [List.find?]
  | cons e es ih =>
    by_cases he : e.1 = k
    · unfold dictContains at h
      rw [List.find?_cons_of_pos _ (by simp [he])] at h
      simp at h
    · unfold dictGet
      rw [List.cons_append, List.find?_cons_of_neg _ (by simp [he])]
      apply ih
      unfold dictContains at h ⊢
      rwa [List.find?_cons_of_neg _ (by simp [he])] at h

theorem dictGet_insert_self {α : Type} (d : List (String × α)) (k : String)
    (v : α) : dictGet (dictInsert d k v) k = some v := by
  unfold dictInsert
  by_cases h : dictContains d k
  · rw [if_pos h]
    exact dictGet_map_replace d k v h
  · rw [if_neg h]
    exact dictGet_append_new d k v (by simpa using h)

theorem length_dictInsert {α : Type} (d : List (String × α)) (k : String)
    (v : α) :
    (dictInsert d k v).length =
      if dictContains d k then d.length else d.length + 1 := by
  unfold dictInsert
  by_cases h : dictContains d k = true <;> simp [h]

theorem length_dictErase_lt {α : Type} (d : List (String × α)) (k : String)
    (h : (dictGet d k).isSome) : (dictErase d k).length < d.length := by
  unfold dictGet at h
  unfold dictErase
  induction d with
  | nil => simp at h
  | cons e es ih =>
    by_cases he : e.1 = k
    · have hdec : (decide (e.1 ≠ k)) = false := by simp [he]
      rw [List.filter_cons, hdec]
      calc (es.filter (fun p => p.1 ≠ k)).length ≤ es.length :=
            List.length_filter_le _ _
        _ < (e :: es).length := by simp
    · have hdec : (decide (e.1 ≠ k)) = true := by simp [he]
      rw [List.filter_cons, hdec]
      rw [List.find?_cons_of_neg _ (by simp [he])] at h
      simpa using Nat.succ_lt_succ (ih h)

/-! ### Shared lemmas about dot products and the cosine tests -/

theorem dotQ_self_nonneg (v : List ℚ) : 0 ≤ dotQ v v := by
  induction v with
  | nil => simp [dotQ]
  | cons a as ih =>
    have h : dotQ (a :: as) (a :: as) = a * a + dotQ as as := rfl
    rw [h]
    have := mul_self_nonneg a
    linarith

theorem dotQ_self_pos (v : List ℚ) (x : ℚ) (hx : x ∈ v) (hne : x ≠ 0) :
    0 < dotQ v v := by
  induction v with
  | nil => simp at hx
  | cons a as ih =>
    have hd : dotQ (a :: as) (a :: as) = a * a + dotQ as as := rfl
    rw [hd]
    rcases List.mem_cons.mp hx with h | h
    · subst h
      have h1 : 0 < x * x := mul_self_pos.mpr hne
      have h2 := dotQ_self_nonneg as
      linarith
    · have h1 := ih h
      have h2 := mul_self_nonneg a
      linarith

theorem dotQ_zero_left (u : List ℚ) (hz : ∀ x ∈ u, x = 0) (v : List ℚ) :
    dotQ u v = 0 := by
  induction u generalizing v with
  | nil => cases v <;> simp [dotQ]
  | cons a as ih =>
    cases v with
    | nil => simp [dotQ]
    | cons b bs =>
      have ha : a = 0 := hz a (by simp)
      have h : dotQ (a :: as) (b :: bs) = a * b + dotQ as bs := rfl
      rw [h, ha, ih (fun x hx => hz x (by simp [hx]))]
      ring

theorem cnormSq_pos (v : List ℚ) : 0 < cnormSq v := by
  unfold cnormSq
  by_cases h : dotQ v v = 0
  · simp [h]
  · have := dotQ_self_nonneg v
    simp only [h, if_false]
    exact lt_of_le_of_ne this (Ne.symm h)

/-- `cosGE` is false against every stored vector when the query transforms
to the zero vector and the threshold is positive. -/
theorem cosGE_zero_query (u : List ℚ) (hz : ∀ x ∈ u, x = 0) (v : List ℚ)
    (θ : ℚ) (hθ : 0 < θ) : cosGE u v θ = false := by
  have hd : dotQ u v = 0 := dotQ_zero_left u hz v
  have key : ¬ ((0 : ℚ) ^ 2 ≥ θ ^ 2 * (cnormSq u * cnormSq v)) := by
    push_neg
    nlinarith [mul_pos (pow_pos hθ 2)
      (mul_pos (cnormSq_pos u) (cnormSq_pos v))]
  simp [cosGE, hd, hθ.le, key]
  exact mul_pos (pow_pos hθ 2) (mul_pos (cnormSq_pos u) (cnormSq_pos v))

/-- `cosGE` holds with any threshold at most 1 when the query vector equals
the stored vector and is nonzero (cosine 1). -/
theorem cosGE_self (u : List ℚ) (hpos : 0 < dotQ u u) (θ : ℚ) (hθ : θ ≤ 1) :
    cosGE u u θ = true := by
  have hne : cnormSq u = dotQ u u := by
    unfold cnormSq
    simp [ne_of_gt hpos]
  by_cases h0 : 0 ≤ θ
  · have : (dotQ u u) ^ 2 ≥ θ ^ 2 * (cnormSq u * cnormSq u) := by
      rw [hne]
      have hθ2 : θ ^ 2 ≤ 1 := by nlinarith
      nlinarith [sq_nonneg (dotQ u u)]
    simp [cosGE, hpos.le, h0, this]
  · simp [cosGE, hpos.le, h0]

/-! ### The fold inside `oldestKey` -/

theorem oldestKey_fold_spec (es : List (String × CachedResponse))
    (e : String × CachedResponse) :
    (es.foldl (fun b p => if p.2.timestamp < b.2.timestamp then p else b) e)
        ∈ e :: es ∧
      ∀ q ∈ e :: es,
        (es.foldl (fun b p => if p.2.timestamp < b.2.timestamp then p else b)
              e).2.timestamp ≤ q.2.timestamp := by
  induction es generalizing e with
  | nil =>
    constructor
    · simp
    · intro q hq
      rcases List.mem_cons.mp hq with h | h
      · subst h; exact le_refl _
      · simp at h
  | cons p ps ih =>
    have hstep :
        (p :: ps).foldl
            (fun b x => if x.2.timestamp < b.2.timestamp then x else b) e =
          ps.foldl (fun b x => if x.2.timestamp < b.2.timestamp then x else b)
            (if p.2.timestamp < e.2.timestamp then p else e) := rfl
    have hih := ih (if p.2.timestamp < e.2.timestamp then p else e)
    have hmem_fe : (if p.2.timestamp < e.2.timestamp then p else e) = p ∨
        (if p.2.timestamp < e.2.timestamp then p else e) = e := by
      by_cases hc : p.2.timestamp < e.2.timestamp <;> simp [hc]
    have hfe_le_e : (if p.2.timestamp < e.2.timestamp then p
        else e).2.timestamp ≤ e.2.timestamp := by
      by_cases hc : p.2.timestamp < e.2.timestamp <;> simp [hc]
      exact hc.le
    have hfe_le_p : (if p.2.timestamp < e.2.timestamp then p
        else e).2.timestamp ≤ p.2.timestamp := by
      by_cases hc : p.2.timestamp < e.2.timestamp <;> simp [hc]
      linarith [not_lt.mp hc]
    constructor
    · rw [hstep]
      rcases List.mem_cons.mp hih.1 with h | h
      · rw [h]
        rcases hmem_fe with h2 | h2 <;> rw [h2] <;> simp
      · simp [List.mem_cons, Or.inr (Or.inr h)]
    · intro q hq
      rw [hstep]
      have hmin_fe := hih.2 (if p.2.timestamp < e.2.timestamp then p else e)
        (by simp)
      rcases List.mem_cons.mp hq with h | hq2
      · subst h
        exact le_trans hmin_fe hfe_le_e
      · rcases List.mem_cons.mp hq2 with h | h
        · subst h
          exact le_trans hmin_fe hfe_le_p
        · exact hih.2 q (by simp [h])

/-! ## Claim theorems -/

/-- C9: `SemanticCache.find_similar` returns `None` rather than raising when
the vectorizer is not fitted or the cached-response list is empty, and any
exception raised inside the body (vectorization, `np.max` on an empty
similarity array, index error) is swallowed and the call reports a miss. -/
theorem C9_find_similar_error_handling (S : SemanticCache) (q : String)
    (w : String → ℚ) :
    ((S.is_fitted = false ∨ S.cached_responses = []) →
      find_similar S q w = (S, none)) ∧
    (∀ e, find_similar_body S q w = .error e →
      find_similar S q w = (S, none)) := by
  constructor
  · intro h
    unfold find_similar
    rw [if_pos h]
  · intro e he
    unfold find_similar
    by_cases h : S.is_fitted = false ∨ S.cached_responses = []
    · rw [if_pos h]
    · rw [if_neg h, he]

/-- C8: the endpoint stores a completed response into its cache exactly when
the stripped text is longer than 10 characters (the `result.data` truthiness
test is subsumed: a stripped length above 10 forces a nonempty string); at
or below the minimum the server state — hence every cache — is unchanged. -/
theorem C8_store_minimum_length (st : ServerState) (key : String)
    (resp : ChatResponse) (data : String) (now : ℚ) :
    ((pyStrip data).length ≤ 10 → chat_store_step st key resp data now = st) ∧
    ((pyStrip data).length > 10 →
      chat_store_step st key resp data now =
        { st with
            chat_cache := cache_chat_response st.chat_cache key resp now }) := by
  constructor
  · intro h
    unfold chat_store_step
    rw [if_neg]
    intro hcon
    omega
  · intro h
    unfold chat_store_step
    rw [if_pos]
    refine ⟨?_, h⟩
    intro hdata
    subst hdata
    revert h
    decide

/-- C7: truncating any 50-message history with `max_history = 12` keeps
exactly the oldest 6 messages, one gap marker recording the 38 omitted
messages, and the newest 6 — 13 entries, never the full 50 — and the built
context is the formatting of precisely that list, minus a trailing user
message. -/
theorem C7_history_truncation (ms : List (String × String))
    (h : ms.length = 50) :
    smart_truncate_history ms 12 =
      ms.take 6 ++ [gapMessage 38] ++ ms.drop 44 ∧
    (smart_truncate_history ms 12).length = 13 ∧
    build_history_context ms false =
      format_history
        (if ((ms.take 6 ++ [gapMessage 38] ++ ms.drop 44).getLast?.map
            Prod.fst) = some "user" then
          (ms.take 6 ++ [gapMessage 38] ++ ms.drop 44).dropLast
        else ms.take 6 ++ [gapMessage 38] ++ ms.drop 44) := by
  have hne : ¬ (ms.length ≤ 12) := by omega
  have htr : smart_truncate_history ms 12 =
      ms.take 6 ++ [gapMessage 38] ++ ms.drop 44 := by
    unfold smart_truncate_history
    rw [if_neg hne]
    norm_num [h]
  refine ⟨htr, ?_, ?_⟩
  · rw [htr]
    have h6 : (ms.take 6).length = 6 := by
      rw [List.length_take]
      omega
    have hd : (ms.drop 44).length = 6 := by
      rw [List.length_drop]
      omega
    simp [h6, hd]
  · have hms : ms ≠ [] := by
      intro hnil
      rw [hnil] at h
      simp at h
    unfold build_history_context
    rw [if_neg hms]
    have h12 : MAX_HISTORY_MESSAGES = 12 := rfl
    rw [h12, htr]
    show format_history
        (if ¬false = true ∧ Option.map (fun x => x.1)
            ((ms.take 6 ++ [gapMessage 38] ++ ms.drop 44)).getLast? =
              some "user" then
          (ms.take 6 ++ [gapMessage 38] ++ ms.drop 44).dropLast
        else ms.take 6 ++ [gapMessage 38] ++ ms.drop 44) = _
    by_cases hc : Option.map Prod.fst
        ((ms.take 6 ++ [gapMessage 38] ++ ms.drop 44)).getLast? = some "user"
    · rw [if_pos (And.intro (by simp) hc), if_pos hc]
    · rw [if_neg (fun hand => hc hand.2), if_neg hc]

/-- C10: `clear_cache` empties the exact and semantic tiers and zeroes all
statistics but leaves the popular tier intact, so a lookup whose normalized
query matches a popular pattern (substring in either direction, first match
in insertion order) still returns that tier's entry instead of a miss. -/
theorem C10_clear_cache_spares_popular (c : IntelligentChatCache)
    (w : String → ℚ) (q context : String) (p : String × CachedResponse)
    (hfind : c.popular_cache.find?
        (fun e => pyContains (normalize_query q) e.1 ||
          pyContains e.1 (normalize_query q)) = some p) :
    (clear_cache c).exact_cache = [] ∧
    (clear_cache c).semantic_cache.cached_responses = [] ∧
    (clear_cache c).semantic_cache.query_vectors = [] ∧
    (clear_cache c).semantic_cache.is_fitted = false ∧
    (clear_cache c).stats_exact_hits = 0 ∧
    (clear_cache c).stats_semantic_hits = 0 ∧
    (clear_cache c).stats_misses = 0 ∧
    (clear_cache c).stats_total_requests = 0 ∧
    (clear_cache c).popular_cache = c.popular_cache ∧
    (get_cached_response (clear_cache c) q context w).2 =
      some { p.2 with usage_count := p.2.usage_count + 1 } := by
  refine ⟨rfl, rfl, rfl, rfl, rfl, rfl, rfl, rfl, rfl, ?_⟩
  unfold get_cached_response
  dsimp only
  have hex : (clear_cache c).exact_cache = [] := rfl
  rw [hex]
  simp only [dictGet, List.find?_nil, Option.map_none']
  have hpop : (clear_cache c).popular_cache = c.popular_cache := rfl
  rw [hpop, hfind]

/-- C6 (amended): the fixed-window limiter with `limit = 10`,
`window = 3600 s`: a first-seen user gets a fresh window with count 1; below
the limit and inside the window the count increments; at the limit inside
the window the check fails with the 429 carrying
`retry_after = ⌊3600 − elapsed⌋`, which is nonnegative and positive whenever
`elapsed ≤ 3599` (in the final fractional second it is 0); once
`elapsed ≥ 3600` the window resets and the check succeeds with count 1. -/
theorem C6_rate_window (user_id : String) (now : ℚ) :
    (∀ ur, dictGet ur user_id = none →
      enforce_user_rate_limit ur user_id now =
        .allowed (dictInsert ur user_id ⟨1, now⟩)) ∧
    (∀ ur d, dictGet ur user_id = some d → now - d.window_start < 3600 →
      d.count < 10 →
      enforce_user_rate_limit ur user_id now =
        .allowed (dictInsert ur user_id ⟨d.count + 1, d.window_start⟩)) ∧
    (∀ ur d, dictGet ur user_id = some d → now - d.window_start < 3600 →
      d.count ≥ 10 →
      enforce_user_rate_limit ur user_id now =
        .rejected (Rat.floor ((3600 : ℚ) - (now - d.window_start))) ∧
      0 ≤ Rat.floor ((3600 : ℚ) - (now - d.window_start)) ∧
      (now - d.window_start ≤ 3599 →
        0 < Rat.floor ((3600 : ℚ) - (now - d.window_start)))) ∧
    (∀ ur d, dictGet ur user_id = some d → now - d.window_start ≥ 3600 →
      enforce_user_rate_limit ur user_id now =
        .allowed (dictInsert ur user_id ⟨1, now⟩)) := by
  have hwin : USER_RATE_WINDOW_SECONDS = 3600 := rfl
  refine ⟨?_, ?_, ?_, ?_⟩
  · intro ur hget
    unfold enforce_user_rate_limit
    rw [hget]
  · intro ur d hget hin hcount
    unfold enforce_user_rate_limit
    rw [hget]
    have h1 : ¬ (now - d.window_start ≥ USER_RATE_WINDOW_SECONDS) := by
      rw [hwin]; linarith
    have h2 : ¬ (d.count ≥ USER_RATE_LIMIT) := by
      simp only [USER_RATE_LIMIT]; omega
    simp only [h1, if_false, h2]
  · intro ur d hget hin hcount
    unfold enforce_user_rate_limit
    rw [hget]
    have h1 : ¬ (now - d.window_start ≥ USER_RATE_WINDOW_SECONDS) := by
      rw [hwin]; linarith
    have h2 : d.count ≥ USER_RATE_LIMIT := by
      simp only [USER_RATE_LIMIT]; omega
    refine ⟨?_, ?_, ?_⟩
    · simp only [h1, if_false, h2, if_true]
      rw [hwin]
    · apply Rat.le_floor.mpr
      push_cast
      linarith
    · intro hle
      have hfl : (1 : ℤ) ≤ Rat.floor ((3600 : ℚ) - (now - d.window_start)) :=
        Rat.le_floor.mpr (by push_cast; linarith)
      exact lt_of_lt_of_le Int.one_pos hfl
  · intro ur d hget hout
    unfold enforce_user_rate_limit
    rw [hget]
    have h1 : now - d.window_start ≥ USER_RATE_WINDOW_SECONDS := by
      rw [hwin]; linarith
    simp only [h1, if_true]

/-- C6 counterexample: ten successful checks at t = 0 … 9 drive user `u1`
to count 10 with the window opened at 0; the 11th check at t = 3599.5 —
still inside the window — is rejected with retry hint `⌊0.5⌋ = 0`, which
is not positive, against the claim's "positive retry_after_seconds". -/
theorem C6_counterexample :
    ([0, 1, 2, 3, 4, 5, 6, 7, 8, 9] : List ℚ).foldl
        (fun st t =>
          match enforce_user_rate_limit st "u1" t with
          | .allowed ur => ur
          | .rejected _ => st) [] = [("u1", ⟨10, 0⟩)] ∧
    ((7199 : ℚ) / 2 - 0 < 3600) ∧
    enforce_user_rate_limit [("u1", ⟨10, 0⟩)] "u1" ((7199 : ℚ) / 2) =
      .rejected 0 ∧
    ¬ (0 : ℤ) > 0 := by
  decide

/-- C1 (amended): in `chat_endpoint` the cache lookup precedes the
rate-limit check — a request whose key is cached is answered from the cache
with the rate state untouched even when the user's window count has reached
the limit, and `_enforce_user_rate_limit` runs only on a cache miss. -/
theorem C1_cache_before_rate_limit (digest : String → String)
    (st : ServerState) (message conversation_id user_id model : String)
    (now : ℚ) (hmsg : pyStrip message ≠ "") :
    (∀ r ts,
      dictGet st.chat_cache
          (get_chat_cache_key digest message conversation_id user_id model) =
        some (r, ts) →
      now - ts < CHAT_CACHE_TTL →
      chat_endpoint_entry digest st message conversation_id user_id model
          now =
        .cacheHit { r with conversation_id := conversation_id,
                           cached_flag := true } st) ∧
    (∀ cc d,
      get_cached_chat_response st.chat_cache
          (get_chat_cache_key digest message conversation_id user_id model)
          now = (cc, none) →
      dictGet st.user_rate user_id = some d →
      now - d.window_start < USER_RATE_WINDOW_SECONDS →
      d.count ≥ USER_RATE_LIMIT →
      chat_endpoint_entry digest st message conversation_id user_id model
          now =
        .rateLimited
          (Rat.floor (USER_RATE_WINDOW_SECONDS - (now - d.window_start)))
          { st with chat_cache := cc }) := by
  constructor
  · intro r ts hget hfresh
    have hlook : get_cached_chat_response st.chat_cache
        (get_chat_cache_key digest message conversation_id user_id model)
        now = (st.chat_cache, some r) := by
      unfold get_cached_chat_response
      rw [hget]
      dsimp only
      rw [if_pos hfresh]
    unfold chat_endpoint_entry
    rw [if_neg hmsg]
    dsimp only
    rw [hlook]
  · intro cc d hlook hd hin hcount
    unfold chat_endpoint_entry
    rw [if_neg hmsg]
    dsimp only
    rw [hlook]
    unfold enforce_user_rate_limit
    rw [hd]
    dsimp only
    have h1 : ¬ (now - d.window_start ≥ USER_RATE_WINDOW_SECONDS) := by
      linarith
    rw [if_neg h1, if_pos hcount]

/-- C1 counterexample: user `u1` is at the limit (count 10, window open at
0) and the exact key of the request is cached; at t = 100 the endpoint
serves the cache hit instead of the 429 the claim requires.  The digest
parameter stands for the MD5 hex key; the run depends only on the cached
entry carrying the same key the lookup computes. -/
theorem C1_counterexample :
    (chat_endpoint_entry (fun s => s)
        { chat_cache :=
            [("msg|c1|u1|gpt-4o-mini",
              ({ response := "cached answer", conversation_id := "c1" }, 0))],
          user_rate := [("u1", ⟨10, 0⟩)] }
        "msg" "c1" "u1" "gpt-4o-mini" 100 =
      .cacheHit
        { response := "cached answer", conversation_id := "c1",
          cached_flag := true }
        { chat_cache :=
            [("msg|c1|u1|gpt-4o-mini",
              ({ response := "cached answer", conversation_id := "c1" }, 0))],
          user_rate := [("u1", ⟨10, 0⟩)] }) ∧
    (10 ≥ USER_RATE_LIMIT) ∧ ((100 : ℚ) - 0 < USER_RATE_WINDOW_SECONDS) := by
  decide

/-- C1 witness: the amended ordering theorem applied at the counterexample
configuration (cache hit despite an exhausted window) and at a miss
configuration (429 with the floor retry hint). -/
theorem C1_witness :
    chat_endpoint_entry (fun s => s)
        { chat_cache :=
            [("msg|c1|u1|gpt-4o-mini",
              ({ response := "cached answer", conversation_id := "c1" }, 0))],
          user_rate := [("u1", ⟨10, 0⟩)] }
        "msg" "c1" "u1" "gpt-4o-mini" 100 =
      .cacheHit
        { response := "cached answer", conversation_id := "c1",
          cached_flag := true }
        { chat_cache :=
            [("msg|c1|u1|gpt-4o-mini",
              ({ response := "cached answer", conversation_id := "c1" }, 0))],
          user_rate := [("u1", ⟨10, 0⟩)] } :=
  (C1_cache_before_rate_limit (fun s => s)
      { chat_cache :=
          [("msg|c1|u1|gpt-4o-mini",
            ({ response := "cached answer", conversation_id := "c1" }, 0))],
        user_rate := [("u1", ⟨10, 0⟩)] }
      "msg" "c1" "u1" "gpt-4o-mini" 100 (by decide)).1
    { response := "cached answer", conversation_id := "c1" } 0 (by decide)
    (by decide)

/-- C2 (amended): entries of the server-side chat-response cache expire —
a lookup at `now ≥ timestamp + TTL` reports a miss, deletes the entry, and
the cache size drops.  The `IntelligentChatCache` tiers, by contrast,
perform no TTL check at all: after `cache_response`, `get_cached_response`
for the same query hits the exact tier whatever the stored timestamp was
(the third conjunct holds for every timestamp, i.e. for arbitrarily old
entries; the lookup never reads a clock). -/
theorem C2_ttl (cc : List (String × (ChatResponse × ℚ))) (key : String)
    (r : ChatResponse) (ts now : ℚ)
    (hmem : dictGet cc key = some (r, ts))
    (hexp : now - ts ≥ CHAT_CACHE_TTL) :
    get_cached_chat_response cc key now = (dictErase cc key, none) ∧
    (dictErase cc key).length < cc.length ∧
    (∀ (c : IntelligentChatCache) (q resp : String) (srcs : List String)
        (context : String) (tstamp : ℚ) (w : String → ℚ),
      c.exact_cache.length < c.max_exact_cache →
      ((get_cached_response (cache_response c q resp srcs context tstamp w)
          q context w).2).isSome) := by
  refine ⟨?_, ?_, ?_⟩
  · unfold get_cached_chat_response
    rw [hmem]
    dsimp only
    rw [if_neg (by linarith)]
  · exact length_dictErase_lt cc key (by rw [hmem]; rfl)
  · intro c q resp srcs context tstamp w hlen
    have hins : (dictInsert c.exact_cache (get_query_hash q context)
        { response := resp, sources := srcs, timestamp := tstamp,
          query_hash := get_query_hash q context,
          conversation_context := context }).length ≤ c.max_exact_cache := by
      rw [length_dictInsert]
      by_cases hc : dictContains c.exact_cache (get_query_hash q context) <;>
        simp [hc] <;> omega
    unfold cache_response
    dsimp only
    rw [if_neg (by omega)]
    unfold get_cached_response
    dsimp only
    rw [dictGet_insert_self]
    rfl

def c2w : String → ℚ := fun _ => 1

/-- The `IntelligentChatCache` state after storing one response for query
`"alpha"` (empty context) at timestamp 0 on a freshly initialised cache. -/
def c2cache : IntelligentChatCache :=
  cache_response (initCache 0) "alpha" "a long enough cached answer"
    ["doc.md"] "" 0 c2w

/-- C2 counterexample: the `IntelligentChatCache` lookup takes no clock and
checks no TTL, so the entry stored at timestamp 0 is returned as a hit — and
`get_cache_stats` still reports the exact tier at size 1 — in particular at
every instant past `timestamp + TTL`, where the claim requires a miss and a
purge. -/
theorem C2_counterexample :
    ((get_cached_response c2cache "alpha" "" c2w).2.map (·.response)) =
      some "a long enough cached answer" ∧
    get_cache_stats (get_cached_response c2cache "alpha" "" c2w).1 =
      .full 1 0 0 1 100 1 1 2 := by
  decide

def c2resp : ChatResponse := { response := "resp", conversation_id := "c" }

/-- C2 witness: the server-cache half of the theorem at a concrete expired
entry (stored at 0, looked up at exactly the 1800 s TTL). -/
theorem C2_witness :
    get_cached_chat_response [("k", (c2resp, 0))] "k" 1800 =
      (dictErase [("k", (c2resp, 0))] "k", none) :=
  (C2_ttl [("k", (c2resp, 0))] "k" c2resp 0 1800 (by decide) (by decide)).1

/-- C3: with `max_exact_cache = 1000` and the exact tier within its bound,
`cache_response` leaves at most 1000 entries; whenever the insertion pushes
the tier over the bound, the tier becomes exactly the inserted dict minus
the single first-in-insertion-order entry of minimal timestamp (the
`min(..., key=timestamp)` pick). -/
theorem C3_eviction_bound (c : IntelligentChatCache) (query response : String)
    (sources : List String) (context : String) (now : ℚ) (w : String → ℚ)
    (hmax : c.max_exact_cache = 1000) (hpre : c.exact_cache.length ≤ 1000) :
    (cache_response c query response sources context now w).exact_cache.length
      ≤ 1000 ∧
    (∀ inserted,
      inserted = dictInsert c.exact_cache (get_query_hash query context)
        { response := response, sources := sources, timestamp := now,
          query_hash := get_query_hash query context,
          conversation_context := context } →
      inserted.length > 1000 →
      ∃ p ∈ inserted,
        oldestKey inserted = some p.1 ∧
        (∀ q2 ∈ inserted, p.2.timestamp ≤ q2.2.timestamp) ∧
        (cache_response c query response sources context now w).exact_cache =
          dictErase inserted p.1) := by
  have hinslen : ∀ (entry : CachedResponse),
      (dictInsert c.exact_cache (get_query_hash query context) entry).length
        ≤ 1001 := by
    intro entry
    rw [length_dictInsert]
    by_cases hc : dictContains c.exact_cache (get_query_hash query context) <;>
      simp [hc] <;> omega
  constructor
  · unfold cache_response
    dsimp only
    rw [hmax]
    by_cases hgt : (dictInsert c.exact_cache (get_query_hash query context)
        { response := response, sources := sources, timestamp := now,
          query_hash := get_query_hash query context,
          conversation_context := context }).length > 1000
    · rw [if_pos hgt]
      rcases List.exists_cons_of_ne_nil
          (show dictInsert c.exact_cache (get_query_hash query context)
            { response := response, sources := sources, timestamp := now,
              query_hash := get_query_hash query context,
              conversation_context := context } ≠ [] by
            intro hnil
            rw [hnil] at hgt
            simp at hgt) with ⟨e, es, hcons⟩
      rw [hcons]
      unfold oldestKey
      dsimp only
      have hspec := oldestKey_fold_spec es e
      have hmem := hspec.1
      have hsome : (dictGet (e :: es)
          ((es.foldl (fun b p => if p.2.timestamp < b.2.timestamp then p
            else b) e).1)).isSome := by
        unfold dictGet
        have h2 : ((e :: es).find? (fun x => decide (x.1 =
            (es.foldl (fun b p => if p.2.timestamp < b.2.timestamp then p
              else b) e).1))).isSome :=
          List.find?_isSome.mpr ⟨_, hmem, by simp⟩
        rcases hfind : (e :: es).find? (fun x => decide (x.1 =
            (es.foldl (fun b p => if p.2.timestamp < b.2.timestamp then p
              else b) e).1)) with _ | x
        · rw [hfind] at h2
          simp at h2
        · rw [hfind]
          rfl
      have hlt := length_dictErase_lt (e :: es) _ hsome
      have hlen : (e :: es).length ≤ 1001 := by
        rw [← hcons]
        exact hinslen _
      omega
    · rw [if_neg hgt]
      omega
  · intro inserted hins hgt
    rcases List.exists_cons_of_ne_nil
        (show inserted ≠ [] by
          intro hnil
          rw [hnil] at hgt
          simp at hgt) with ⟨e, es, hcons⟩
    have hspec := oldestKey_fold_spec es e
    refine ⟨(es.foldl (fun b p => if p.2.timestamp < b.2.timestamp then p
      else b) e), by rw [hcons]; exact hspec.1, ?_, ?_, ?_⟩
    · rw [hcons]
      unfold oldestKey
      dsimp only
    · intro q2 hq2
      rw [hcons] at hq2
      exact hspec.2 q2 hq2
    · unfold cache_response
      dsimp only
      rw [hmax, ← hins, if_pos hgt, hcons]
      unfold oldestKey
      dsimp only

/-- C3 witness: the bound applied at a freshly initialised cache. -/
theorem C3_witness :
    (cache_response (initCache 0) "alpha" "resp" [] "" 0 c2w).exact_cache.length
      ≤ 1000 :=
  (C3_eviction_bound (initCache 0) "alpha" "resp" [] "" 0 c2w rfl
    (by decide)).1

/-- Concrete eviction run on a down-scaled tier (`max_exact_cache = 2`, the
field the source sets to 1000 at construction): inserting a third key evicts
exactly `"k1"`, the single entry with the oldest timestamp. -/
theorem eviction_small_example :
    ((cache_response
        { exact_cache :=
            [("k1", { response := "r1", sources := [], timestamp := 3,
                      query_hash := "k1" }),
             ("k2", { response := "r2", sources := [], timestamp := 5,
                      query_hash := "k2" })],
          max_exact_cache := 2,
          popular_cache := [] }
        "alpha" "r3" [] "" 9 c2w).exact_cache.map Prod.fst) =
      ["k2", get_query_hash "alpha" ""] := by
  decide

/-- A TTL-checked lookup never grows the retrieval cache. -/
theorem get_cached_result_length_le (digest : String → String)
    (rc : List (String × (String × ℚ))) (q : String) (now : ℚ) :
    ((get_cached_result digest rc q now).1).length ≤ rc.length := by
  unfold get_cached_result
  rcases hget : dictGet rc (rag_cache_key digest q) with _ | rt
  · exact le_refl _
  · dsimp only
    by_cases hfresh : now - rt.2 < RAG_CACHE_TTL
    · rw [if_pos hfresh]
    · rw [if_neg hfresh]
      exact List.length_filter_le _ _

/-- C5: the `retrieve` tool issues at most two `rag.aquery` attempts; a
primary timeout triggers exactly one fallback attempt in mode `"local"`
with the fixed 15 s timeout; and if that fallback also times out or raises,
the tool returns (rather than raises) the user-facing
"took too long, simplify" message and stores it in the retrieval cache, so
the same query within the 300 s TTL is a cache hit. -/
theorem C5_retrieve_fallback (digest : String → String)
    (rc : List (String × (String × ℚ))) (search_query : String)
    (now now2 : ℚ) (primary fallback : RagCall)
    (hmiss : (get_cached_result digest rc search_query now).2 = none)
    (hsmall : rc.length < 1000)
    (hfresh : now2 - now < RAG_CACHE_TTL) :
    (∀ rc2 p2 f2,
      (retrieve digest rc2 search_query now p2 f2).attempts.length ≤ 2) ∧
    (primary = .timedOut →
      (retrieve digest rc search_query now primary fallback).attempts =
        [⟨(retrieve_mode_timeout search_query).1,
          (retrieve_mode_timeout search_query).2⟩, ⟨"local", 15⟩]) ∧
    (primary = .timedOut → (fallback = .timedOut ∨ ∃ e, fallback = .err e) →
      (retrieve digest rc search_query now primary fallback).result =
        fallback_message search_query ∧
      (get_cached_result digest
          (retrieve digest rc search_query now primary fallback).cache
          search_query now2).2 = some (fallback_message search_query)) := by
  refine ⟨?_, ?_, ?_⟩
  · intro rc2 p2 f2
    unfold retrieve
    rcases hl : get_cached_result digest rc2 search_query now with ⟨rcx, res⟩
    rcases res with _ | cached
    · dsimp only
      rcases p2 with r0 | _ | e0
      · simp
      · rcases f2 with r1 | _ | e1 <;> simp
      · simp
    · simp
  · intro hp
    subst hp
    unfold retrieve
    rcases hl : get_cached_result digest rc search_query now with ⟨rcx, res⟩
    rw [hl] at hmiss
    simp only at hmiss
    subst hmiss
    rcases fallback with r1 | _ | e1 <;> rfl
  · intro hp hf
    subst hp
    have hstore : (retrieve digest rc search_query now .timedOut fallback).result =
        fallback_message search_query ∧
      (retrieve digest rc search_query now .timedOut fallback).cache =
        cache_result digest (get_cached_result digest rc search_query now).1
          search_query (fallback_message search_query) now := by
      unfold retrieve
      rcases hl : get_cached_result digest rc search_query now with ⟨rcx, res⟩
      rw [hl] at hmiss
      simp only at hmiss
      subst hmiss
      rcases hf with hf | ⟨e, hf⟩ <;> subst hf <;> exact ⟨rfl, rfl⟩
    refine ⟨hstore.1, ?_⟩
    rw [hstore.2]
    have hrcx := get_cached_result_length_le digest rc search_query now
    unfold cache_result
    have hlen : (dictInsert (get_cached_result digest rc search_query now).1
        (rag_cache_key digest search_query)
        (fallback_message search_query, now)).length ≤ 1000 := by
      rw [length_dictInsert]
      by_cases hc : dictContains (get_cached_result digest rc
          search_query now).1 (rag_cache_key digest search_query) <;>
        simp [hc] <;> omega
    rw [if_neg (by omega)]
    unfold get_cached_result
    rw [dictGet_insert_self]
    dsimp only
    rw [if_pos (by linarith)]

/-- C5 witness: a primary timeout followed by a failing fallback on an empty
retrieval cache returns the fallback message and the same query hits the
cache 100 s later. -/
theorem C5_witness :
    (retrieve (fun s => s) [] "short query" 0 .timedOut (.err "boom")).result =
      fallback_message "short query" ∧
    (get_cached_result (fun s => s)
        (retrieve (fun s => s) [] "short query" 0 .timedOut
          (.err "boom")).cache
        "short query" 100).2 = some (fallback_message "short query") :=
  ((C5_retrieve_fallback (fun s => s) [] "short query" 0 100 .timedOut
      (.err "boom") (by decide) (by decide) (by decide)).2.2) rfl
    (Or.inr ⟨"boom", rfl⟩)

/-! ### Lemmas about the insertion sort and the vocabulary -/

theorem length_insertBy {α : Type} (le : α → α → Bool) (x : α) (l : List α) :
    (insertBy le x l).length = l.length + 1 := by
  induction l with
  | nil => rfl
  | cons a as ih =>
    unfold insertBy
    by_cases h : le x a = true
    · rw [if_pos h]
      simp
    · rw [if_neg h]
      simp [ih]

theorem length_sortBy {α : Type} (le : α → α → Bool) (l : List α) :
    (sortBy le l).length = l.length := by
  induction l with
  | nil => rfl
  | cons a as ih =>
    show (insertBy le a (sortBy le as)).length = as.length + 1
    rw [length_insertBy, ih]

theorem mem_insertBy {α : Type} (le : α → α → Bool) (x y : α) (l : List α) :
    y ∈ insertBy le x l ↔ y = x ∨ y ∈ l := by
  induction l with
  | nil => simp [insertBy]
  | cons a as ih =>
    unfold insertBy
    by_cases h : le x a = true
    · rw [if_pos h]
      simp [or_comm, or_assoc, or_left_comm]
    · rw [if_neg h]
      simp only [List.mem_cons, ih]
      tauto

theorem mem_sortBy {α : Type} (le : α → α → Bool) (y : α) (l : List α) :
    y ∈ sortBy le l ↔ y ∈ l := by
  induction l with
  | nil => simp [sortBy]
  | cons a as ih =>
    show y ∈ insertBy le a (sortBy le as) ↔ _
    rw [mem_insertBy]
    simp [ih]

/-- Every vocabulary term is a term of the corpus (in both the plain and the
`max_features`-capped branch). -/
theorem mem_vocabulary (corpus : List String) (t : String)
    (ht : t ∈ vocabulary corpus) :
    t ∈ corpus.foldr (fun d acc => docTerms d ++ acc) [] := by
  unfold vocabulary at ht
  dsimp only at ht
  by_cases hlen : (sortBy strLe
      ((corpus.foldr (fun d acc => docTerms d ++ acc) []).dedup)).length ≤
        1000
  · rw [if_pos hlen] at ht
    exact List.mem_dedup.mp ((mem_sortBy _ _ _).mp ht)
  · rw [if_neg hlen] at ht
    rcases List.mem_map.mp ((mem_sortBy _ _ _).mp ht) with
      ⟨pair, hpair_take, hfst⟩
    have hpair := List.mem_of_mem_take hpair_take
    rcases List.mem_map.mp ((mem_sortBy _ _ _).mp hpair) with ⟨t2, ht2, hp2⟩
    have ht2t : t2 = t := by rw [← hfst, ← hp2]
    subst ht2t
    exact List.mem_dedup.mp ((mem_sortBy _ _ _).mp ht2)

/-- The vocabulary of a corpus with at least one term is nonempty. -/
theorem vocabulary_ne_nil (corpus : List String)
    (h : corpus.foldr (fun d acc => docTerms d ++ acc) [] ≠ []) :
    vocabulary corpus ≠ [] := by
  unfold vocabulary
  dsimp only
  have hded : ((corpus.foldr (fun d acc => docTerms d ++ acc) []).dedup) ≠
      [] := by
    intro hnil
    exact h ((List.dedup_eq_nil _).mp hnil)
  have hvlen : 0 < (sortBy strLe
      ((corpus.foldr (fun d acc => docTerms d ++ acc) []).dedup)).length := by
    rw [length_sortBy]
    exact List.length_pos.mpr hded
  by_cases hlen : (sortBy strLe
      ((corpus.foldr (fun d acc => docTerms d ++ acc) []).dedup)).length ≤
        1000
  · rw [if_pos hlen]
    intro hnil
    rw [hnil] at hvlen
    simp at hvlen
  · rw [if_neg hlen]
    intro hnil
    have hlen0 := congrArg List.length hnil
    rw [length_sortBy, List.length_map, List.length_take, length_sortBy,
      List.length_map] at hlen0
    simp only [List.length_nil] at hlen0
    omega

/-- The self dot product of a tf-idf row is positive when the vocabulary is
nonempty, every vocabulary term occurs in the document, and the weights are
positive. -/
theorem tfidfRow_self_pos (w : String → ℚ) (hw : ∀ t, 0 < w t)
    (vocab : List String) (doc : String) (hne : vocab ≠ [])
    (hsub : ∀ t ∈ vocab, t ∈ docTerms doc) :
    0 < dotQ (tfidfRow w vocab doc) (tfidfRow w vocab doc) := by
  rcases List.exists_cons_of_ne_nil hne with ⟨t0, rest, hcons⟩
  have ht0 : t0 ∈ docTerms doc := hsub t0 (by rw [hcons]; simp)
  have hcount : 0 < (docTerms doc).count t0 :=
    List.count_pos_iff.mpr ht0
  have hx : ((docTerms doc).count t0 : ℚ) * w t0 ∈ tfidfRow w vocab doc := by
    unfold tfidfRow
    exact List.mem_map.mpr ⟨t0, by rw [hcons]; simp, rfl⟩
  have hxpos : 0 < ((docTerms doc).count t0 : ℚ) * w t0 :=
    mul_pos (by exact_mod_cast hcount) (hw t0)
  exact dotQ_self_pos _ _ hx (ne_of_gt hxpos)

/-- C4 (amended): when the semantic cache holds exactly one entry, an
identical query matches it (cosine 1 ≥ 0.85) and the returned copy carries
the incremented `usage_count`; and a query sharing no terms with the fitted
vocabulary returns `None`.  Because `add_to_cache` re-fits on the stored
entries' `query_hash` digests instead of their original queries (and pairs
row 0 — the newest query — with index 0 — the oldest entry), a query
identical to an entry of a multi-entry cache is `not` guaranteed a match;
see the counterexample.  Both parts hold for every positive per-term weight,
hence for the code's idf. -/
theorem C4_semantic_threshold (w : String → ℚ) (hw : ∀ t, 0 < w t)
    (r : CachedResponse) (q : String)
    (hq : sklearnTokens (normalize_query q) ≠ []) :
    (∃ v, (find_similar (add_to_cache {} q r w) q w).2 =
      some { r with embedding := some v,
                    usage_count := r.usage_count + 1 }) ∧
    (∀ (S : SemanticCache) (q2 : String),
      0 < S.similarity_threshold →
      (∀ t ∈ S.vocab, t ∉ docTerms (normalize_query q2)) →
      (find_similar S q2 w).2 = none) := by
  constructor
  · have hall : docTerms (normalize_query q) ≠ [] := by
      unfold docTerms
      dsimp only
      intro hnil
      exact hq (List.append_eq_nil.mp hnil).1
    have hfold : ([normalize_query q].foldr
        (fun d acc => docTerms d ++ acc) []) ≠ [] := by
      simpa using hall
    have hvne := vocabulary_ne_nil [normalize_query q] hfold
    have hsub : ∀ t ∈ vocabulary [normalize_query q],
        t ∈ docTerms (normalize_query q) := by
      intro t ht
      have := mem_vocabulary _ t ht
      simpa using this
    have hdot := tfidfRow_self_pos w hw _ _ hvne hsub
    have hcos := cosGE_self _ hdot ((17 : ℚ) / 20) (by norm_num)
    have hS1 : add_to_cache {} q r w =
        { vocab := vocabulary [normalize_query q],
          query_vectors := [tfidfRow w (vocabulary [normalize_query q]) (normalize_query q)],
          cached_responses := [{ r with embedding := some (tfidfRow w (vocabulary [normalize_query q]) (normalize_query q)) }],
          is_fitted := true } := by
      unfold add_to_cache
      dsimp only
      simp only [List.length_nil, Nat.zero_sub, List.drop_nil, List.map_nil]
      rw [if_neg hvne]
      rfl
    refine ⟨tfidfRow w (vocabulary [normalize_query q]) (normalize_query q),
      ?_⟩
    rw [hS1]
    unfold find_similar
    rw [if_neg (by simp)]
    unfold find_similar_body bestSimIdx
    dsimp only
    simp only [List.foldl_nil, List.getD_cons_zero]
    rw [hcos]
    simp
  · intro S q2 hθ hdisj
    unfold find_similar
    by_cases hguard : S.is_fitted = false ∨ S.cached_responses = []
    · rw [if_pos hguard]
    · rw [if_neg hguard]
      have hzq : ∀ x ∈ tfidfRow w S.vocab (normalize_query q2), x = 0 := by
        intro x hx
        unfold tfidfRow at hx
        rcases List.mem_map.mp hx with ⟨t, ht, hxe⟩
        have hcount : (docTerms (normalize_query q2)).count t = 0 :=
          List.count_eq_zero.mpr (hdisj t ht)
        rw [← hxe, hcount]
        simp
      unfold find_similar_body
      rcases hqv : S.query_vectors with _ | ⟨v0, vs⟩
      · rfl
      · dsimp only
        rw [cosGE_zero_query _ hzq _ _ hθ]
        simp

def c4r1 : CachedResponse :=
  { response := "resp one", sources := [], timestamp := 0,
    query_hash := get_query_hash "alpha beta" "" }

def c4r2 : CachedResponse :=
  { response := "resp two", sources := [], timestamp := 1,
    query_hash := get_query_hash "gamma delta" "" }

/-- The semantic cache after adding `"alpha beta"` and then
`"gamma delta"` (each stored, as in `cache_response`, with its
`_get_query_hash` digest in `query_hash`), with weight 1 for every term. -/
def c4S2 : SemanticCache :=
  add_to_cache (add_to_cache {} "alpha beta" c4r1 c2w) "gamma delta" c4r2 c2w

/-- C4 counterexample: `"alpha beta"` was added to the semantic cache and is
still retained (both entries present), yet `find_similar` for the identical
query returns `None`: the second add re-fitted the vectorizer on
`["gamma delta", <hash of "alpha beta">]`, a corpus in which the tokens of
`"alpha beta"` no longer occur, so the query transforms to the zero vector.
The weight-1 instantiation is harmless: a zero tf row is zero under every
per-term weight (see the second part of the amended theorem). -/
theorem C4_counterexample :
    (find_similar c4S2 "alpha beta" c2w).2 = none ∧
    c4S2.cached_responses.map (·.response) = ["resp one", "resp two"] := by
  decide

/-- C4 witness: the amended theorem applied with weight 1, the single-entry
cache seeded by `"alpha beta"`, and the vocabulary-disjoint query
`"zz qq"` against the concrete two-entry cache. -/
theorem C4_witness :
    (find_similar c4S2 "zz qq" c2w).2 = none :=
  (C4_semantic_threshold c2w (fun t => by norm_num [c2w]) c4r1 "alpha beta"
      (by decide)).2 c4S2 "zz qq" (by decide) (by decide)

/-- A concrete 50-message history. -/
def c7ms : List (String × String) :=
  (List.range 50).map (fun i => ("user", "hello " ++ toString i))

/-- C7 witness: the truncation theorem at the concrete 50-message list. -/
theorem C7_witness :
    smart_truncate_history c7ms 12 =
      c7ms.take 6 ++ [gapMessage 38] ++ c7ms.drop 44 ∧
    (smart_truncate_history c7ms 12).length = 13 ∧
    build_history_context c7ms false =
      format_history
        (if ((c7ms.take 6 ++ [gapMessage 38] ++ c7ms.drop 44).getLast?.map
            Prod.fst) = some "user" then
          (c7ms.take 6 ++ [gapMessage 38] ++ c7ms.drop 44).dropLast
        else c7ms.take 6 ++ [gapMessage 38] ++ c7ms.drop 44) :=
  C7_history_truncation c7ms (by simp [c7ms])

/-- C10 witness: after `clear_cache` on a fresh cache, the query
`"что такое золотая виза?"` still hits the popular tier's golden-visa
entry. -/
theorem C10_witness :
    (get_cached_response (clear_cache (initCache 0))
        "что такое золотая виза?" "" c2w).2 =
      some { response := "Золотая виза ОАЭ — это долгосрочная резидентская виза сроком до 10 лет...",
             sources := ["golden_visa_overview.md"], timestamp := 0,
             query_hash := "popular_golden_visa", usage_count := 1 } :=
  (C10_clear_cache_spares_popular (initCache 0) c2w
      "что такое золотая виза?" ""
      ("золотая виза",
        { response := "Золотая виза ОАЭ — это долгосрочная резидентская виза сроком до 10 лет...",
          sources := ["golden_visa_overview.md"], timestamp := 0,
          query_hash := "popular_golden_visa", usage_count := 0 })
      (by decide)).2.2.2.2.2.2.2.2.2
